import Mathlib

/-!
# Verification of `opt`, a generic option type for Go

Shallow embedding of `opt.go`.

* A Go type `T` is a Lean type with a designated zero value (`ZeroValue T`).
* `Opt[T]` is the two-field struct of the source; Go's `==` on comparable
  structs is Lean's structural equality.
* A pointer `*T` is `Ptr T`: `none` is `nil`, `some v` is a non-nil pointer
  whose pointee currently holds `v`.  Dereferencing is the fallible step
  `deref`.
* An `error` interface value is `Option ErrorValue`: `none` is `nil`.
* Code that may panic produces an `Outcome`: a normal return or a panic
  carrying the panic value.
* Callbacks (`func(T) U`, `func() T`) are arbitrary Go code: they may read
  and write an ambient state `σ` and may panic.  They are functions into
  `Go σ _`, the state-and-panic monad.  `traced` instruments a callback with
  a call log, the counterpart of the call flags used in `opt_test.go`.
-/

namespace opt

/-! ## Go values -/

/-- Zero value of a Go type: what `var z T` holds. -/
class ZeroValue (T : Type) where
  /-- The zero value of `T`. -/
  zeroValue : T

export ZeroValue (zeroValue)

instance : ZeroValue Bool := ⟨false⟩
instance : ZeroValue Nat := ⟨0⟩
instance : ZeroValue Int := ⟨0⟩
instance : ZeroValue String := ⟨""⟩
instance : ZeroValue Unit := ⟨()⟩
instance {T : Type} : ZeroValue (List T) := ⟨[]⟩
instance {T : Type} : ZeroValue (Option T) := ⟨none⟩
instance {A B : Type} [ZeroValue A] [ZeroValue B] : ZeroValue (A × B) :=
  ⟨(zeroValue, zeroValue)⟩

/-- A Go pointer `*T`: `none` is `nil`, `some v` points at storage holding `v`. -/
abbrev Ptr (T : Type) : Type := Option T

/-- A non-nil value of the `error` interface. -/
structure ErrorValue where
  message : String
deriving DecidableEq, Repr

/-- The value carried by a panic. -/
inductive PanicValue where
  /-- The operand of `panic("...")`, a Go string. -/
  | str (s : String)
  /-- A `runtime.Error` raised by the Go runtime. -/
  | runtimeError (s : String)
deriving DecidableEq, Repr

/-- How a call ends: it returns a value or it panics. -/
inductive Outcome (α : Type) where
  | ret (a : α)
  | panic (p : PanicValue)
deriving DecidableEq, Repr

/-- Whether the call returned. -/
def Outcome.returns {α : Type} : Outcome α → Bool
  | Outcome.ret _ => true
  | Outcome.panic _ => false

/-- Go code with access to an ambient state `σ`: run from a state it ends in
an outcome and a new state (the writes made before a panic persist). -/
def Go (σ α : Type) : Type := σ → Outcome α × σ

instance {σ : Type} : Monad (Go σ) where
  pure a := fun s => (Outcome.ret a, s)
  bind m k := fun s =>
    match m s with
    | (Outcome.ret a, s') => k a s'
    | (Outcome.panic p, s') => (Outcome.panic p, s')

/-- The panic value of a nil pointer dereference. -/
def nilDeref : PanicValue :=
  PanicValue.runtimeError "invalid memory address or nil pointer dereference"

/-- Dereference `*p`: the pointee, or the runtime panic when `p` is nil. -/
def deref {T : Type} (p : Ptr T) : Outcome T :=
  match p with
  | none => Outcome.panic nilDeref
  | some v => Outcome.ret v

/-- Instrumented callback: every invocation appends `tag a` to a call log kept
beside the state, then runs `f a` on the state proper.  The entry is written
whether or not `f` returns. -/
def traced {A B κ σ : Type} (tag : A → κ) (f : A → Go σ B) : A → Go (List κ × σ) B :=
  fun a st =>
    match f a st.2 with
    | (r, s') => (r, (st.1 ++ [tag a], s'))

/-- A callback that panics with the string `msg` and touches nothing:
`func(A) B { panic(msg) }`. -/
def panics {A B σ : Type} (msg : String) : A → Go σ B :=
  fun _ s => (Outcome.panic (PanicValue.str msg), s)

/-- A callback without effects that returns `g a`. -/
def returning {A B σ : Type} (g : A → B) : A → Go σ B :=
  fun a => pure (g a)

/-- Entry of the call log of `Match`: which branch ran, and on what. -/
inductive Branch (T : Type) where
  | onSome (v : T)
  | onNone
deriving DecidableEq, Repr

/-! ## `opt.go` -/

/-- Source: `type Opt[T any] struct { value T; isSome bool }`. -/
structure Opt (T : Type) where
  /-- The wrapped value, if there is one. -/
  value : T
  /-- Whether the option contains a value. -/
  isSome : Bool
deriving DecidableEq, Repr

/-- The zero struct `Opt[T]{}`: every field holds its zero value. -/
instance {T : Type} [ZeroValue T] : ZeroValue (Opt T) :=
  ⟨{ value := zeroValue, isSome := zeroValue }⟩

/-- The `INVARIANT` comment of the struct: `!isSome => value == zeroValue[T]()`. -/
def Inv {T : Type} [ZeroValue T] (o : Opt T) : Prop :=
  o.isSome = false → o.value = zeroValue

instance {T : Type} [ZeroValue T] [DecidableEq T] (o : Opt T) : Decidable (Inv o) :=
  inferInstanceAs (Decidable (o.isSome = false → o.value = zeroValue))

/-- Source: `func None[T any]() Opt[T] { return Opt[T]{isSome: false} }`: the omitted
field `value` holds the zero value. -/
def None {T : Type} [ZeroValue T] : Opt T := { value := zeroValue, isSome := false }

/-- Source: `func Some[T any](v T) Opt[T] { return Opt[T]{value: v, isSome: true} }`. -/
def Some {T : Type} (v : T) : Opt T := { value := v, isSome := true }

/-- Source: `func FromPtr[T any](p *T) Opt[T]`. -/
def FromPtr {T : Type} [ZeroValue T] (p : Ptr T) : Outcome (Opt T) :=
  if p.isNone then
    Outcome.ret None
  else
    match deref p with
    | Outcome.ret v => Outcome.ret (Some v)
    | Outcome.panic e => Outcome.panic e

/-- Source: `func FromValOk[T any](v T, ok bool) Opt[T]`. -/
def FromValOk {T : Type} [ZeroValue T] (v : T) (ok : Bool) : Opt T :=
  if !ok then None else Some v

/-- Source: `func FromValErr[T any](v T, err error) Opt[T]`. -/
def FromValErr {T : Type} [ZeroValue T] (v : T) (err : Option ErrorValue) : Opt T :=
  if err.isSome then None else Some v

/-- Source: `func (o Opt[T]) Get() (v T, ok bool)`. -/
def Opt.Get {T : Type} [ZeroValue T] (o : Opt T) : T × Bool :=
  if !o.isSome then
    let z : T := zeroValue
    (z, false)
  else
    (o.value, true)

/-- Source: `func (o Opt[T]) IsSome() bool`. -/
def Opt.IsSome {T : Type} (o : Opt T) : Bool := o.isSome

/-- Source: `func (o Opt[T]) Unwrap() T`. -/
def Opt.Unwrap {T : Type} (o : Opt T) : Outcome T :=
  if !o.isSome then
    Outcome.panic (PanicValue.str "None unwrapped")
  else
    Outcome.ret o.value

/-- Source: `func (o Opt[T]) UnwrapOr(v T) T`. -/
def Opt.UnwrapOr {T : Type} (o : Opt T) (v : T) : T :=
  if !o.isSome then v else o.value

/-- Source: `func (o Opt[T]) UnwrapOrElse(f func() T) T`. -/
def Opt.UnwrapOrElse {T σ : Type} (o : Opt T) (f : Unit → Go σ T) : Go σ T :=
  if !o.isSome then f () else pure o.value

/-- Source: `func (o *Opt[T]) Take() Opt[T]`: the receiver is a pointer; the result is
the outcome of the call together with the receiver afterwards.  Reading
`o.isSome` dereferences the receiver. -/
def Opt.Take {T : Type} [ZeroValue T] (o : Ptr (Opt T)) : Outcome (Opt T) × Ptr (Opt T) :=
  match deref o with
  | Outcome.panic e => (Outcome.panic e, o)
  | Outcome.ret cur =>
    if !cur.isSome then
      (Outcome.ret None, o)
    else
      let res := cur
      (Outcome.ret res, some None)

/-- Source: `func (o Opt[T]) ToPtr() *T`: `&o.value` points at the receiver copy. -/
def Opt.ToPtr {T : Type} (o : Opt T) : Ptr T :=
  if !o.isSome then none else some o.value

/-- Source: `func Map[T, U any](o Opt[T], f func(T) U) Opt[U]`. -/
def Map {T U σ : Type} [ZeroValue U] (o : Opt T) (f : T → Go σ U) : Go σ (Opt U) :=
  if !o.isSome then
    pure None
  else
    f o.value >>= fun u => pure (Some u)

/-- Source: `func Match[T, U any](o Opt[T], some func(T) U, none func() U) U`. -/
def Match {T U σ : Type} (o : Opt T) (some : T → Go σ U) (none : Unit → Go σ U) : Go σ U :=
  if o.isSome then some o.value else none ()

/-! ## Basic facts -/

theorem Go.pure_run {σ α : Type} (a : α) (s : σ) :
    (pure a : Go σ α) s = (Outcome.ret a, s) := rfl

theorem Go.bind_run {σ α β : Type} (m : Go σ α) (k : α → Go σ β) (s : σ) :
    (m >>= k) s =
      match m s with
      | (Outcome.ret a, s') => k a s'
      | (Outcome.panic p, s') => (Outcome.panic p, s') := rfl

theorem Opt.eq_Some_of_isSome {T : Type} (o : Opt T) (h : o.isSome = true) :
    o = Some o.value := by
  cases o; simp_all [Some]

theorem Opt.eq_None_of_absent {T : Type} [ZeroValue T] (o : Opt T)
    (h : o.isSome = false) (hinv : Inv o) : o = None := by
  cases o; simp_all [None, Inv]

theorem Map_absent {T U σ : Type} [ZeroValue U] (o : Opt T) (h : o.isSome = false)
    (f : T → Go σ U) (s : σ) : Map o f s = (Outcome.ret None, s) := by
  simp [Map, h, Go.pure_run]

theorem Map_present {T U σ : Type} [ZeroValue U] (o : Opt T) (h : o.isSome = true)
    (f : T → Go σ U) (s : σ) :
    Map o f s =
      match f o.value s with
      | (Outcome.ret u, s') => (Outcome.ret (Some u), s')
      | (Outcome.panic p, s') => (Outcome.panic p, s') := by
  simp only [Map, h, Bool.not_true, Bool.false_eq_true, if_false, Go.bind_run]
  rcases hf : f o.value s with ⟨r, s'⟩
  cases r <;> simp [Go.pure_run]

theorem Take_absent {T : Type} [ZeroValue T] (o : Opt T) (h : o.isSome = false) :
    Opt.Take (some o) = (Outcome.ret None, some o) := by
  simp [Opt.Take, deref, h]

theorem Take_present {T : Type} [ZeroValue T] (o : Opt T) (h : o.isSome = true) :
    Opt.Take (some o) = (Outcome.ret o, some None) := by
  simp [Opt.Take, deref, h]

theorem Inv_None {T : Type} [ZeroValue T] : Inv (None : Opt T) := fun _ => rfl

theorem Inv_of_isSome {T : Type} [ZeroValue T] (o : Opt T) (h : o.isSome = true) : Inv o := by
  intro h'; rw [h] at h'; cases h'

/-! ## The canonical-absence invariant -/

/-- C1. Every option the public API produces satisfies the invariant
`!isSome => value == zeroValue`: `None`, `Some`, `FromPtr`, `FromValOk` and
`FromValErr` return such an option for every input; every option `Map`
returns satisfies it, and `Map` does return one whenever the option is absent
or the callback returns on the payload; `Take` on a receiver that satisfies
the invariant returns an option satisfying it and leaves the receiver
satisfying it. -/
theorem canonical_absence_invariant {T U σ : Type} [ZeroValue T] [ZeroValue U]
    (v : T) (p : Ptr T) (ok : Bool) (err : Option ErrorValue)
    (o : Opt T) (f : T → Go σ U) (s : σ) (r : Opt T) (hr : Inv r) :
    Inv (None : Opt T) ∧ Inv (Some v)
    ∧ (∃ x, FromPtr p = Outcome.ret x ∧ Inv x)
    ∧ Inv (FromValOk v ok) ∧ Inv (FromValErr v err)
    ∧ (∀ x, (Map o f s).1 = Outcome.ret x → Inv x)
    ∧ (o.isSome = false ∨ (f o.value s).1.returns = true → (Map o f s).1.returns = true)
    ∧ (∃ x r', Opt.Take (some r) = (Outcome.ret x, some r') ∧ Inv x ∧ Inv r') := by
  refine ⟨Inv_None, Inv_of_isSome _ rfl, ?_, ?_, ?_, ?_, ?_, ?_⟩
  · cases p with
    | none => exact ⟨None, rfl, Inv_None⟩
    | some w => exact ⟨Some w, rfl, Inv_of_isSome _ rfl⟩
  · cases ok
    · exact Inv_None
    · exact Inv_of_isSome _ rfl
  · cases err with
    | none => exact Inv_of_isSome _ rfl
    | some e => exact Inv_None
  · intro x hx
    cases h : o.isSome with
    | false =>
      rw [Map_absent o h] at hx
      cases hx
      exact Inv_None
    | true =>
      rw [Map_present o h] at hx
      rcases hf : f o.value s with ⟨q, s'⟩
      rw [hf] at hx
      cases q with
      | ret u => cases hx; exact Inv_of_isSome _ rfl
      | panic e => cases hx
  · intro hyp
    cases h : o.isSome with
    | false => rw [Map_absent o h]; rfl
    | true =>
      rw [Map_present o h]
      rcases hyp with hab | hret
      · rw [h] at hab; cases hab
      · rcases hf : f o.value s with ⟨q, s'⟩
        rw [hf] at hret
        cases q with
        | ret u => rfl
        | panic e => cases hret
  · cases h : r.isSome with
    | false => exact ⟨None, r, Take_absent r h, Inv_None, hr⟩
    | true => exact ⟨r, None, Take_present r h, hr, Inv_None⟩

/-- Witness for C1: the theorem at concrete inputs, with an absent receiver
for `Take` that satisfies the invariant. -/
theorem canonical_absence_invariant_witness :
    Inv ({ value := 0, isSome := false } : Opt Nat)
    ∧ (∃ x, FromPtr (some 3 : Ptr Nat) = Outcome.ret x ∧ Inv x)
    ∧ Inv (FromValOk (5 : Nat) false)
    ∧ (∃ x r', Opt.Take (some ({ value := 0, isSome := false } : Opt Nat))
        = (Outcome.ret x, some r') ∧ Inv x ∧ Inv r') :=
  have h := canonical_absence_invariant (5 : Nat) (some 3) false (some ⟨"e"⟩)
    (Some 2) (fun x => (pure (x + 1) : Go Unit Nat)) () { value := 0, isSome := false }
    (by decide)
  ⟨by decide, h.2.2.1, h.2.2.2.1, h.2.2.2.2.2.2.2⟩

/-- C2. Absent options are equal whatever path built them: `FromValOk(v, false)`,
`FromValErr(v, e)` with a non-nil `e`, `FromPtr(nil)`, `Map(None, f)`, the
result of `Take` on an absent option and the zero struct `Opt[T]{}` are all
`None[T]()`; and two options with `IsSome` false that satisfy the invariant
are equal. -/
theorem absent_options_equal {T U σ : Type} [ZeroValue T] [ZeroValue U]
    (v : T) (e : ErrorValue) (f : U → Go σ T) (s : σ)
    (a : Opt T) (ha : a.IsSome = false)
    (o1 o2 : Opt T) (h1 : o1.IsSome = false) (h2 : o2.IsSome = false)
    (i1 : Inv o1) (i2 : Inv o2) :
    FromValOk v false = None
    ∧ FromValErr v (some e) = None
    ∧ FromPtr (none : Ptr T) = Outcome.ret None
    ∧ Map (None : Opt U) f s = (Outcome.ret (None : Opt T), s)
    ∧ (Opt.Take (some a)).1 = Outcome.ret None
    ∧ (zeroValue : Opt T) = None
    ∧ o1 = o2 := by
  refine ⟨rfl, rfl, rfl, Map_absent _ rfl f s, ?_, rfl, ?_⟩
  · rw [Take_absent a ha]
  · rw [Opt.eq_None_of_absent o1 h1 i1, Opt.eq_None_of_absent o2 h2 i2]

/-- Witness for C2: integers, a stored value 7 discarded on every absent path. -/
theorem absent_options_equal_witness :
    FromValOk (7 : Int) false = None
    ∧ FromValErr (7 : Int) (some ⟨"boom"⟩) = None
    ∧ FromPtr (none : Ptr Int) = Outcome.ret None
    ∧ Map (None : Opt Nat) (fun n => (pure (Int.ofNat n) : Go Unit Int)) ()
        = (Outcome.ret (None : Opt Int), ())
    ∧ (Opt.Take (some (FromValOk (7 : Int) false))).1 = Outcome.ret None
    ∧ (zeroValue : Opt Int) = None
    ∧ FromValOk (7 : Int) false = FromValErr 9 (some ⟨"boom"⟩) :=
  absent_options_equal (7 : Int) ⟨"boom"⟩ (fun n => (pure (Int.ofNat n) : Go Unit Int)) ()
    (FromValOk 7 false) rfl (FromValOk 7 false) (FromValErr 9 (some ⟨"boom"⟩)) rfl rfl
    (by decide) (by decide)

/-! ## Take and Unwrap -/

/-- C3. `Take` extracts and resets: on a receiver holding `Some(v)` it returns
`Some(v)` and leaves the receiver equal to `None[T]()` (flag false, value the
zero value); on a receiver holding `None[T]()` it returns `None[T]()` and the
receiver is still `None[T]()`. -/
theorem Take_extracts_and_resets {T : Type} [ZeroValue T] (v : T) :
    Opt.Take (some (Some v)) = (Outcome.ret (Some v), some None)
    ∧ Opt.Take (some (None : Opt T)) = (Outcome.ret None, some None)
    ∧ (None : Opt T).isSome = false ∧ (None : Opt T).value = zeroValue :=
  ⟨Take_present _ rfl, Take_absent _ rfl, rfl, rfl⟩

/-- C4. `Unwrap` fails exactly when the option is absent: `Some(v).Unwrap()`
returns `v`; an option with `IsSome` false panics with the string
`"None unwrapped"`, for every `T`; a present option returns its value; so
`Unwrap` panics if and only if `IsSome` is false. -/
theorem Unwrap_panics_iff_absent {T : Type} (v : T) (o : Opt T) :
    (Some v).Unwrap = Outcome.ret v
    ∧ (o.IsSome = false → o.Unwrap = Outcome.panic (PanicValue.str "None unwrapped"))
    ∧ (o.IsSome = true → o.Unwrap = Outcome.ret o.value)
    ∧ ((∃ e, o.Unwrap = Outcome.panic e) ↔ o.IsSome = false) := by
  refine ⟨rfl, ?_, ?_, ?_⟩
  · intro h; simp only [Opt.IsSome] at h; simp [Opt.Unwrap, h]
  · intro h; simp only [Opt.IsSome] at h; simp [Opt.Unwrap, h]
  · cases h : o.isSome <;> simp [Opt.Unwrap, Opt.IsSome, h]

/-- Witness for C4 on an absent `Opt[uint]`: the panic value is the fixed string. -/
theorem Unwrap_panics_iff_absent_witness :
    (None : Opt Nat).Unwrap = Outcome.panic (PanicValue.str "None unwrapped") :=
  (Unwrap_panics_iff_absent 0 (None : Opt Nat)).2.1 rfl

/-! ## Totality -/

theorem UnwrapOrElse_absent {T σ : Type} (o : Opt T) (h : o.isSome = false)
    (f : Unit → Go σ T) (s : σ) : o.UnwrapOrElse f s = f () s := by
  simp [Opt.UnwrapOrElse, h]

theorem UnwrapOrElse_present {T σ : Type} (o : Opt T) (h : o.isSome = true)
    (f : Unit → Go σ T) (s : σ) : o.UnwrapOrElse f s = (Outcome.ret o.value, s) := by
  simp [Opt.UnwrapOrElse, h, Go.pure_run]

theorem Match_absent {T U σ : Type} (o : Opt T) (h : o.isSome = false)
    (a : T → Go σ U) (b : Unit → Go σ U) (s : σ) : Match o a b s = b () s := by
  simp [Match, h]

theorem Match_present {T U σ : Type} (o : Opt T) (h : o.isSome = true)
    (a : T → Go σ U) (b : Unit → Go σ U) (s : σ) : Match o a b s = a o.value s := by
  simp [Match, h]

theorem Map_of_ret {T U σ : Type} [ZeroValue U] (o : Opt T) (h : o.isSome = true)
    (f : T → Go σ U) (s s' : σ) (u : U) (hf : f o.value s = (Outcome.ret u, s')) :
    Map o f s = (Outcome.ret (Some u), s') := by
  rw [Map_present o h, hf]

theorem Map_of_panic {T U σ : Type} [ZeroValue U] (o : Opt T) (h : o.isSome = true)
    (f : T → Go σ U) (s s' : σ) (e : PanicValue) (hf : f o.value s = (Outcome.panic e, s')) :
    Map o f s = (Outcome.panic e, s') := by
  rw [Map_present o h, hf]

theorem Map_fst_panic {T U σ : Type} [ZeroValue U] (o : Opt T) (f : T → Go σ U) (s : σ)
    (e : PanicValue) (hm : (Map o f s).1 = Outcome.panic e) :
    o.isSome = true ∧ (f o.value s).1 = Outcome.panic e := by
  cases h : o.isSome with
  | false => rw [Map_absent o h] at hm; cases hm
  | true =>
    refine ⟨rfl, ?_⟩
    rcases hf : f o.value s with ⟨q, s'⟩
    cases q with
    | ret u => rw [Map_of_ret o h f s s' u hf] at hm; cases hm
    | panic e' =>
      rw [Map_of_panic o h f s s' e' hf] at hm
      have he : e' = e := by simpa using hm
      rw [he]

theorem Map_returns {T U σ : Type} [ZeroValue U] (o : Opt T) (f : T → Go σ U) (s : σ)
    (hf : o.isSome = true → (f o.value s).1.returns = true) :
    (Map o f s).1.returns = true := by
  cases h : o.isSome with
  | false => rw [Map_absent o h]; rfl
  | true =>
    have hr := hf h
    rcases hq : f o.value s with ⟨q, s'⟩
    rw [hq] at hr
    cases q with
    | ret u => rw [Map_of_ret o h f s s' u hq]; rfl
    | panic e => cases hr

/-- C5 (counterexample). Operations other than `Unwrap` can panic: `Map`,
`Match` and `UnwrapOrElse` panic when the callback they invoke panics, and
`Take` called through a nil receiver panics on the dereference. -/
theorem total_operations_counterexample :
    Map (Some (1 : Nat)) (panics "boom" : Nat → Go Unit Nat) ()
      = (Outcome.panic (PanicValue.str "boom"), ())
    ∧ Match (Some (1 : Nat)) (panics "boom" : Nat → Go Unit Nat) (returning fun _ => 0) ()
      = (Outcome.panic (PanicValue.str "boom"), ())
    ∧ (None : Opt Nat).UnwrapOrElse (panics "boom") ()
      = (Outcome.panic (PanicValue.str "boom"), ())
    ∧ Opt.Take (none : Ptr (Opt Nat)) = (Outcome.panic nilDeref, none) := by
  decide

/-- C5 (amended). `Unwrap` on an absent option is the only failure the
package raises itself.  `FromPtr` returns for every pointer, nil included;
`Take` returns for every non-nil receiver, and through a nil receiver it
panics with the nil-dereference error of the runtime; `UnwrapOrElse`, `Map`
and `Match` return whenever the callback they select returns; when that
callback panics, its panic propagates unchanged, value and state; and a
panic of theirs is always the panic of that callback, with its value.
`IsSome`, `Get`, `UnwrapOr` and `ToPtr` answer every option, absent or
present, with an ordinary value; `FromValOk` and `FromValErr` return `None`
or `Some(v)`; `Unwrap` returns on a present option and does not return on an
absent one. -/
theorem total_except_callbacks {T U σ : Type} [ZeroValue T] [ZeroValue U]
    (o : Opt T) (p : Ptr T) (d : T) (f : Unit → Go σ T) (g : T → Go σ U)
    (onSome : T → Go σ U) (onNone : Unit → Go σ U) (s : σ)
    (v : T) (ok : Bool) (err : Option ErrorValue) :
    (FromPtr p).returns = true
    ∧ (Opt.Take (some o)).1.returns = true
    ∧ ((o.isSome = false → (f () s).1.returns = true) →
        (o.UnwrapOrElse f s).1.returns = true)
    ∧ ((o.isSome = true → (g o.value s).1.returns = true) →
        (Map o g s).1.returns = true)
    ∧ ((o.isSome = true → (onSome o.value s).1.returns = true) →
        (o.isSome = false → (onNone () s).1.returns = true) →
        (Match o onSome onNone s).1.returns = true)
    ∧ (∀ e, (o.UnwrapOrElse f s).1 = Outcome.panic e →
        o.isSome = false ∧ (f () s).1 = Outcome.panic e)
    ∧ (∀ e, (Map o g s).1 = Outcome.panic e →
        o.isSome = true ∧ (g o.value s).1 = Outcome.panic e)
    ∧ (∀ e, (Match o onSome onNone s).1 = Outcome.panic e →
        (o.isSome = true ∧ (onSome o.value s).1 = Outcome.panic e)
        ∨ (o.isSome = false ∧ (onNone () s).1 = Outcome.panic e))
    ∧ (o.isSome = false →
        o.IsSome = false ∧ o.Get = (zeroValue, false) ∧ o.UnwrapOr d = d
        ∧ o.ToPtr = none ∧ o.Unwrap.returns = false)
    ∧ (o.isSome = false → ∀ e s', f () s = (Outcome.panic e, s') →
        o.UnwrapOrElse f s = (Outcome.panic e, s'))
    ∧ (o.isSome = true → ∀ e s', g o.value s = (Outcome.panic e, s') →
        Map o g s = (Outcome.panic e, s'))
    ∧ (o.isSome = true → ∀ e s', onSome o.value s = (Outcome.panic e, s') →
        Match o onSome onNone s = (Outcome.panic e, s'))
    ∧ (o.isSome = false → ∀ e s', onNone () s = (Outcome.panic e, s') →
        Match o onSome onNone s = (Outcome.panic e, s'))
    ∧ (o.isSome = true →
        o.IsSome = true ∧ o.Get = (o.value, true) ∧ o.UnwrapOr d = o.value
        ∧ o.ToPtr = some o.value ∧ o.Unwrap = Outcome.ret o.value)
    ∧ (FromValOk v ok = None ∨ FromValOk v ok = Some v)
    ∧ (FromValErr v err = None ∨ FromValErr v err = Some v)
    ∧ Opt.Take (none : Ptr (Opt T)) = (Outcome.panic nilDeref, none) := by
  refine ⟨?_, ?_, ?_, Map_returns o g s, ?_, ?_, Map_fst_panic o g s, ?_, ?_,
    ?_, fun h e s' hg => Map_of_panic o h g s s' e hg, ?_, ?_, ?_, ?_, ?_, rfl⟩
  · cases p <;> rfl
  · cases h : o.isSome with
    | false => rw [Take_absent o h]; rfl
    | true => rw [Take_present o h]; rfl
  · intro hf
    cases h : o.isSome with
    | false => rw [UnwrapOrElse_absent o h]; exact hf h
    | true => rw [UnwrapOrElse_present o h]; rfl
  · intro ha hb
    cases h : o.isSome with
    | false => rw [Match_absent o h]; exact hb h
    | true => rw [Match_present o h]; exact ha h
  · intro e he
    cases h : o.isSome with
    | false => rw [UnwrapOrElse_absent o h] at he; exact ⟨rfl, he⟩
    | true => rw [UnwrapOrElse_present o h] at he; cases he
  · intro e he
    cases h : o.isSome with
    | false => rw [Match_absent o h] at he; exact Or.inr ⟨rfl, he⟩
    | true => rw [Match_present o h] at he; exact Or.inl ⟨rfl, he⟩
  · intro h
    simp [Opt.IsSome, Opt.Get, Opt.UnwrapOr, Opt.ToPtr, Opt.Unwrap, Outcome.returns, h]
  · intro h e s' hf
    rw [UnwrapOrElse_absent o h, hf]
  · intro h e s' ha
    rw [Match_present o h, ha]
  · intro h e s' hb
    rw [Match_absent o h, hb]
  · intro h
    simp [Opt.IsSome, Opt.Get, Opt.UnwrapOr, Opt.ToPtr, Opt.Unwrap, h]
  · cases ok
    · exact Or.inl rfl
    · exact Or.inr rfl
  · cases err with
    | none => exact Or.inr rfl
    | some e => exact Or.inl rfl

/-- Witness for C5 (amended): with callbacks that return, `Map`, `Match` and
`UnwrapOrElse` return on a present option; with a callback that panics with
"boom", `Map` on a present option and `UnwrapOrElse` on an absent one panic
with "boom". -/
theorem total_except_callbacks_witness :
    (Map (Some (3 : Nat)) (returning (fun x => x * 2) : Nat → Go Unit Nat) ()).1.returns = true
    ∧ (Match (Some (3 : Nat)) (returning (fun x => x * 2) : Nat → Go Unit Nat)
        (returning fun _ => 0) ()).1.returns = true
    ∧ ((Some (3 : Nat)).UnwrapOrElse (returning fun _ => 0) ()).1.returns = true
    ∧ Map (Some (3 : Nat)) (panics "boom" : Nat → Go Unit Nat) ()
        = (Outcome.panic (PanicValue.str "boom"), ())
    ∧ (None : Opt Nat).UnwrapOrElse (panics "boom") ()
        = (Outcome.panic (PanicValue.str "boom"), ()) :=
  have h := total_except_callbacks (U := Nat) (Some (3 : Nat)) none 0 (returning fun _ => 0)
    (returning fun x => x * 2) (returning fun x => x * 2) (returning fun _ => 0) () 0 true none
  have hp := total_except_callbacks (U := Nat) (Some (3 : Nat)) none 0 (panics "boom")
    (panics "boom") (panics "boom") (panics "boom") () 0 true none
  have hn := total_except_callbacks (U := Nat) (None : Opt Nat) none 0 (panics "boom")
    (panics "boom") (panics "boom") (panics "boom") () 0 true none
  ⟨h.2.2.2.1 (fun _ => rfl), h.2.2.2.2.1 (fun _ => rfl) (fun _ => rfl),
    h.2.2.1 (fun _ => rfl),
    hp.2.2.2.2.2.2.2.2.2.2.1 rfl _ _ rfl,
    hn.2.2.2.2.2.2.2.2.2.1 rfl _ _ rfl⟩

/-! ## Callbacks: `Map`, `Match`, `UnwrapOrElse` -/

theorem traced_run {A B κ σ : Type} (tag : A → κ) (f : A → Go σ B) (a : A)
    (log : List κ) (s : σ) :
    traced tag f a (log, s) = ((f a s).1, (log ++ [tag a], (f a s).2)) := rfl

/-- C6. `Map` applies `f` only to a present payload.  On an absent option the
result is `None[U]()` and the state is untouched, for every `f` (so two
callbacks give the same result, and a panicking one does not panic), and an
instrumented `f` records no call.  On `Some(v)`: if `f(v)` returns `u` then
`Map` returns `Some(u)` with the effects of that one call; if `f(v)` panics,
so does `Map`; and an instrumented `f` records exactly one call, with
argument `v`. -/
theorem Map_applies_only_to_present {T U σ : Type} [ZeroValue U]
    (o : Opt T) (h : o.IsSome = false) (v : T) (f f' : T → Go σ U) (s : σ)
    (log : List T) :
    Map o f s = (Outcome.ret None, s)
    ∧ Map o f s = Map o f' s
    ∧ Map o (panics "f fails") s = (Outcome.ret (None : Opt U), s)
    ∧ Map o (traced id f) (log, s) = (Outcome.ret None, (log, s))
    ∧ (∀ u s', f v s = (Outcome.ret u, s') → Map (Some v) f s = (Outcome.ret (Some u), s'))
    ∧ (∀ e s', f v s = (Outcome.panic e, s') → Map (Some v) f s = (Outcome.panic e, s'))
    ∧ (Map (Some v) (traced id f) (log, s)).2 = (log ++ [v], (f v s).2) := by
  have h0 : o.isSome = false := h
  refine ⟨Map_absent o h0 f s, ?_, Map_absent o h0 _ s, Map_absent o h0 _ _, ?_, ?_, ?_⟩
  · rw [Map_absent o h0 f s, Map_absent o h0 f' s]
  · intro u s' hf
    exact Map_of_ret (Some v) rfl f s s' u hf
  · intro e s' hf
    exact Map_of_panic (Some v) rfl f s s' e hf
  · rw [Map_present (Some v) rfl, traced_run]
    rcases hq : f v s with ⟨q, s'⟩
    have hq' : f (Some v).value s = (q, s') := hq
    rw [hq']
    cases q <;> rfl

/-- Witness for C6: doubling a `uint`; the absent option is `FromValOk(5, false)`. -/
theorem Map_applies_only_to_present_witness :
    Map (FromValOk (5 : Nat) false) (returning (fun x => x * 2) : Nat → Go Unit Nat) ()
      = (Outcome.ret None, ())
    ∧ Map (FromValOk (5 : Nat) false) (traced id (returning (fun x => x * 2) : Nat → Go Unit Nat))
        ([], ()) = (Outcome.ret None, ([], ()))
    ∧ Map (Some (7 : Nat)) (returning (fun x => x * 2) : Nat → Go Unit Nat) ()
      = (Outcome.ret (Some 14), ())
    ∧ (Map (Some (7 : Nat)) (traced id (returning (fun x => x * 2) : Nat → Go Unit Nat))
        ([], ())).2 = ([7], ()) :=
  have h := Map_applies_only_to_present (FromValOk (5 : Nat) false) rfl 7
    (returning (fun x => x * 2) : Nat → Go Unit Nat) (panics "other") () []
  ⟨h.1, h.2.2.2.1, h.2.2.2.2.1 14 () rfl, h.2.2.2.2.2.2⟩

/-- C7. `Match` runs exactly one branch.  On an absent option it is `onNone()`
and the call log holds the single entry `onNone`; on a present option, in
particular on `Some(v)`, it is `onSome` of the payload and the log holds the
single entry `onSome payload`.  For every option the log grows by exactly one
entry: never zero calls, never both. -/
theorem Match_runs_exactly_one_branch {T U σ : Type}
    (o : Opt T) (v : T) (onSome : T → Go σ U) (onNone : Unit → Go σ U) (s : σ)
    (log : List (Branch T)) :
    (o.IsSome = false →
        Match o onSome onNone s = onNone () s
        ∧ (Match o (traced Branch.onSome onSome) (traced (fun _ => Branch.onNone) onNone)
            (log, s)).2.1 = log ++ [Branch.onNone])
    ∧ (o.IsSome = true →
        Match o onSome onNone s = onSome o.value s
        ∧ (Match o (traced Branch.onSome onSome) (traced (fun _ => Branch.onNone) onNone)
            (log, s)).2.1 = log ++ [Branch.onSome o.value])
    ∧ Match (Some v) onSome onNone s = onSome v s
    ∧ (Match (Some v) (traced Branch.onSome onSome) (traced (fun _ => Branch.onNone) onNone)
        (log, s)).2.1 = log ++ [Branch.onSome v]
    ∧ (∃ c, (Match o (traced Branch.onSome onSome) (traced (fun _ => Branch.onNone) onNone)
        (log, s)).2.1 = log ++ [c]) := by
  have hab : o.isSome = false →
      (Match o (traced Branch.onSome onSome) (traced (fun _ => Branch.onNone) onNone)
        (log, s)).2.1 = log ++ [Branch.onNone] := by
    intro h; rw [Match_absent o h, traced_run]
  have hpr : o.isSome = true →
      (Match o (traced Branch.onSome onSome) (traced (fun _ => Branch.onNone) onNone)
        (log, s)).2.1 = log ++ [Branch.onSome o.value] := by
    intro h; rw [Match_present o h, traced_run]
  refine ⟨fun h => ⟨Match_absent o h _ _ s, hab h⟩, fun h => ⟨Match_present o h _ _ s, hpr h⟩,
    Match_present (Some v) rfl _ _ s, ?_, ?_⟩
  · rw [Match_present (Some v) rfl, traced_run]; rfl
  · cases h : o.isSome with
    | false => exact ⟨_, hab h⟩
    | true => exact ⟨_, hpr h⟩

/-- Witness for C7 on an absent `Opt[bool]`, as in `TestMatch`: the result is
that of the none branch, 79, and only that branch is logged. -/
theorem Match_runs_exactly_one_branch_witness :
    Match (None : Opt Bool) (panics "some branch" : Bool → Go Unit Int) (returning fun _ => 79) ()
      = (Outcome.ret 79, ())
    ∧ (Match (None : Opt Bool) (traced Branch.onSome (panics "some branch" : Bool → Go Unit Int))
        (traced (fun _ => Branch.onNone) (returning fun _ => 79)) ([], ())).2.1
      = [Branch.onNone] :=
  (Match_runs_exactly_one_branch (None : Opt Bool) true
    (panics "some branch" : Bool → Go Unit Int) (returning fun _ => 79) () []).1 rfl

/-- C8. `UnwrapOrElse` is lazy.  On `Some(v)` it returns `v` and leaves the
state untouched for every fallback `f`, a panicking one included, and an
instrumented `f` records no call.  On an absent option it is `f()`: same
outcome, same effects, and an instrumented `f` records exactly one call. -/
theorem UnwrapOrElse_is_lazy {T σ : Type}
    (o : Opt T) (h : o.IsSome = false) (v : T) (f : Unit → Go σ T) (s : σ)
    (log : List Unit) :
    (Some v).UnwrapOrElse f s = (Outcome.ret v, s)
    ∧ (Some v).UnwrapOrElse (panics "f fails") s = (Outcome.ret v, s)
    ∧ (Some v).UnwrapOrElse (traced id f) (log, s) = (Outcome.ret v, (log, s))
    ∧ o.UnwrapOrElse f s = f () s
    ∧ o.UnwrapOrElse (traced id f) (log, s) = ((f () s).1, (log ++ [()], (f () s).2)) := by
  have h0 : o.isSome = false := h
  refine ⟨UnwrapOrElse_present _ rfl f s, UnwrapOrElse_present _ rfl _ s,
    UnwrapOrElse_present _ rfl _ _, UnwrapOrElse_absent o h0 f s, ?_⟩
  rw [UnwrapOrElse_absent o h0, traced_run]

/-- Witness for C8 on `None[int]()` with the fallback of `TestOpt_UnwrapOrElse`. -/
theorem UnwrapOrElse_is_lazy_witness :
    (None : Opt Int).UnwrapOrElse (returning fun _ => 7) () = (Outcome.ret 7, ())
    ∧ (None : Opt Int).UnwrapOrElse (traced id (returning fun _ => 7 : Unit → Go Unit Int))
        ([], ()) = (Outcome.ret 7, ([()], ())) :=
  have h := UnwrapOrElse_is_lazy (None : Opt Int) rfl 3 (returning fun _ => 7) () []
  ⟨h.2.2.2.1, h.2.2.2.2⟩

/-! ## `Get` and `FromValOk` -/

/-- C9. Round trip through `Get`: `Some(v).Get()` is `(v, true)` and
`None[T]().Get()` is `(zero value, false)`; for every option the flag `Get`
returns is `IsSome()`, a present option yields its payload, and whenever the
flag is false the value returned is the zero value of `T` (also for an option
that breaks the invariant). -/
theorem Get_round_trip {T : Type} [ZeroValue T] (v : T) (o : Opt T) :
    (Some v).Get = (v, true)
    ∧ (None : Opt T).Get = (zeroValue, false)
    ∧ o.Get.2 = o.IsSome
    ∧ (o.Get.2 = true → o.Get.1 = o.value)
    ∧ (o.Get.2 = false → o.Get.1 = zeroValue) := by
  refine ⟨rfl, rfl, ?_, ?_, ?_⟩
  · simp only [Opt.Get, Opt.IsSome]
    cases o.isSome <;> rfl
  · cases h : o.isSome <;> simp [Opt.Get, h]
  · cases h : o.isSome <;> simp [Opt.Get, h]

/-- Witness for C9: an absent option holding a stale 5 still yields the zero value. -/
theorem Get_round_trip_witness :
    ({ value := 5, isSome := false } : Opt Nat).Get.1 = 0 :=
  (Get_round_trip 0 ({ value := 5, isSome := false } : Opt Nat)).2.2.2.2 rfl

/-- C10. In `FromValOk` the flag decides: `FromValOk(v, false)` is `None[T]()`
for every `v`, non-zero ones included, and the value it stores is the zero
value, not `v`; `FromValOk(v, true)` is `Some(v)`. -/
theorem FromValOk_flag_is_authoritative {T : Type} [ZeroValue T] (v : T) :
    FromValOk v false = None
    ∧ (FromValOk v false).value = zeroValue
    ∧ (FromValOk v false).isSome = false
    ∧ FromValOk v true = Some v :=
  ⟨rfl, rfl, rfl, rfl⟩

/-! ## `FromValErr`, `FromPtr`, `ToPtr`, `UnwrapOr`, `IsSome` -/

/-- C11. `FromValErr` looks only at whether an error is present: with a non-nil
error the result is `None[T]()` for every `v` (the stored value is the zero
value), so two non-nil errors, and two values, give the same result; with a
nil error the result is `Some(v)`. -/
theorem FromValErr_inspects_only_presence {T : Type} [ZeroValue T]
    (v v' : T) (e e' : ErrorValue) :
    FromValErr v (some e) = None
    ∧ FromValErr v (some e) = FromValErr v' (some e')
    ∧ (FromValErr v (some e)).value = zeroValue
    ∧ FromValErr v none = Some v :=
  ⟨rfl, rfl, rfl, rfl⟩

/-- C12. `FromPtr` converts a nullable reference: `FromPtr(nil)` returns
`None[T]()`, whose `IsSome` is false; a pointer whose pointee is `v` (hence
non-nil) is converted to `Some(v)`. -/
theorem FromPtr_converts_nullable {T : Type} [ZeroValue T]
    (p : Ptr T) (v : T) (hp : deref p = Outcome.ret v) :
    FromPtr (none : Ptr T) = Outcome.ret None
    ∧ (None : Opt T).IsSome = false
    ∧ p ≠ none
    ∧ FromPtr p = Outcome.ret (Some v) := by
  refine ⟨rfl, rfl, ?_, ?_⟩
  · intro hnil; rw [hnil] at hp; cases hp
  · cases p with
    | none => cases hp
    | some w =>
      have hw : w = v := by simpa [deref] using hp
      rw [hw]; rfl

/-- Witness for C12: the pointer of `TestFromPtr`, here to the pair (7, 9). -/
theorem FromPtr_converts_nullable_witness :
    FromPtr (some ((7 : Nat), (9 : Nat)) : Ptr (Nat × Nat)) = Outcome.ret (Some (7, 9)) :=
  (FromPtr_converts_nullable (some ((7 : Nat), (9 : Nat))) (7, 9) rfl).2.2.2

/-- C13. `ToPtr` is nil exactly when the option is absent: an absent option
gives nil, not a pointer to a zero value; `Some(v).ToPtr()` is non-nil and
dereferences to `v`. -/
theorem ToPtr_nil_iff_absent {T : Type} [ZeroValue T] (o : Opt T) (v : T) :
    (o.IsSome = false → o.ToPtr = none ∧ o.ToPtr ≠ some zeroValue)
    ∧ (Some v).ToPtr ≠ none
    ∧ deref (Some v).ToPtr = Outcome.ret v
    ∧ (o.ToPtr = none ↔ o.IsSome = false) := by
  refine ⟨?_, ?_, rfl, ?_⟩
  · intro h
    simp only [Opt.IsSome] at h
    simp [Opt.ToPtr, h]
  · simp [Opt.ToPtr, Some]
  · cases h : o.isSome <;> simp [Opt.ToPtr, Opt.IsSome, h]

/-- Witness for C13: an absent `Opt[[]string]` converts to nil, as in `TestOpt_ToPtr`. -/
theorem ToPtr_nil_iff_absent_witness :
    (None : Opt (List String)).ToPtr = none :=
  ((ToPtr_nil_iff_absent (None : Opt (List String)) []).1 rfl).1

/-- C14. `UnwrapOr` returns the payload or the default: `Some(v).UnwrapOr(d)` is
`v`, also when `v` is the zero value; an absent option gives `d`. -/
theorem UnwrapOr_payload_or_default {T : Type} [ZeroValue T] (o : Opt T) (v d : T) :
    (Some v).UnwrapOr d = v
    ∧ (Some (zeroValue : T)).UnwrapOr d = zeroValue
    ∧ (o.IsSome = false → o.UnwrapOr d = d)
    ∧ (o.IsSome = true → o.UnwrapOr d = o.value) := by
  refine ⟨rfl, rfl, ?_, ?_⟩
  · intro h; simp only [Opt.IsSome] at h; simp [Opt.UnwrapOr, h]
  · intro h; simp only [Opt.IsSome] at h; simp [Opt.UnwrapOr, h]

/-- Witness for C14: `None[int]().UnwrapOr(7)` is 7, and `Some(0).UnwrapOr(7)` is 0. -/
theorem UnwrapOr_payload_or_default_witness :
    (None : Opt Int).UnwrapOr 7 = 7 ∧ (Some (0 : Int)).UnwrapOr 7 = 0 :=
  have h := UnwrapOr_payload_or_default (None : Opt Int) 0 7
  ⟨h.2.2.1 rfl, h.1⟩

/-- C15. Presence does not depend on the payload: `Some(v).IsSome()` is true for
every `v`, the zero value and a nil pointer included; `None[T]().IsSome()` is
false; so `Some(v)` never equals `None[T]()`, not even for the zero value. -/
theorem presence_independent_of_payload {T : Type} [ZeroValue T] (v : T) :
    (Some v).IsSome = true
    ∧ (Some (zeroValue : T)).IsSome = true
    ∧ (Some (none : Ptr T)).IsSome = true
    ∧ (None : Opt T).IsSome = false
    ∧ Some v ≠ None
    ∧ Some (zeroValue : T) ≠ None := by
  refine ⟨rfl, rfl, rfl, rfl, ?_, ?_⟩ <;>
    · intro h
      have h' := congrArg Opt.isSome h
      cases h'

/-! ## Compositions and round trips -/

/-- C16. `Map` followed by `UnwrapOr`: on `Some(v)` the result is what `f(v)`
returns (with the effects of that one call), on an absent option it is the
default `d`; for a function `g` without effects the result on `Some(v)` is
`g v`; in particular `Map(Some(7), x => x*2).UnwrapOr(0)` is 14 and
`Map(None[int](), x => x*2).UnwrapOr(0)` is 0. -/
theorem Map_then_UnwrapOr {T U σ : Type} [ZeroValue U]
    (o : Opt T) (h : o.IsSome = false) (v : T) (f : T → Go σ U) (g : T → U) (d : U) (s : σ) :
    (∀ u s', f v s = (Outcome.ret u, s') →
        (Map (Some v) f >>= fun m => pure (m.UnwrapOr d)) s = (Outcome.ret u, s'))
    ∧ (Map o f >>= fun m => pure (m.UnwrapOr d)) s = (Outcome.ret d, s)
    ∧ (Map (Some v) (returning g) >>= fun m => pure (m.UnwrapOr d)) s = (Outcome.ret (g v), s)
    ∧ (Map (Some (7 : Int)) (returning fun x => x * 2) >>= fun m => pure (m.UnwrapOr 0)) s
        = (Outcome.ret 14, s)
    ∧ (Map (None : Opt Int) (returning fun x => x * 2) >>= fun m => pure (m.UnwrapOr 0)) s
        = (Outcome.ret 0, s) := by
  have hpres : ∀ (W : Type) [ZeroValue W] (w : T) (k : T → Go σ W) (c : W) (u : W) (s' : σ),
      k w s = (Outcome.ret u, s') →
      (Map (Some w) k >>= fun m => pure (m.UnwrapOr c)) s = (Outcome.ret u, s') := by
    intro W _ w k c u s' hk
    rw [Go.bind_run, Map_of_ret (Some w) rfl k s s' u hk]
    rfl
  refine ⟨fun u s' hf => hpres U v f d u s' hf, ?_, hpres U v (returning g) d (g v) s rfl, ?_, ?_⟩
  · rw [Go.bind_run, Map_absent o h]
    rfl
  · rw [Go.bind_run, Map_of_ret (Some (7 : Int)) rfl _ s s 14 rfl]
    rfl
  · rw [Go.bind_run, Map_absent _ rfl]
    rfl

/-- Witness for C16: an absent `Opt[uint]` built by `FromValOk(5, false)`, mapped
and unwrapped with default 9, gives 9. -/
theorem Map_then_UnwrapOr_witness :
    (Map (FromValOk (5 : Nat) false) (returning fun x => x + 1 : Nat → Go Unit Nat)
        >>= fun m => pure (m.UnwrapOr 9)) () = (Outcome.ret 9, ()) :=
  (Map_then_UnwrapOr (FromValOk (5 : Nat) false) rfl 3
    (returning fun x => x + 1 : Nat → Go Unit Nat) (fun x => x + 1) 9 ()).2.1

/-- C17. `Get` and `FromValOk` are inverse: for an option satisfying the
invariant, `FromValOk(o.Get())` is `o`; and `FromValOk(v, ok).Get()` is
`(v, true)` when `ok` is true and `(zero value, false)` when it is false. -/
theorem Get_FromValOk_inverse {T : Type} [ZeroValue T]
    (o : Opt T) (hinv : Inv o) (v : T) (ok : Bool) :
    FromValOk o.Get.1 o.Get.2 = o
    ∧ (FromValOk v true).Get = (v, true)
    ∧ (FromValOk v false).Get = (zeroValue, false)
    ∧ (FromValOk v ok).Get = if ok then (v, true) else (zeroValue, false) := by
  refine ⟨?_, rfl, rfl, ?_⟩
  · cases h : o.isSome with
    | false =>
      rw [Opt.eq_None_of_absent o h hinv]
      rfl
    | true =>
      have hg : o.Get = (o.value, true) := by simp [Opt.Get, h]
      rw [hg]
      exact (Opt.eq_Some_of_isSome o h).symm
  · cases ok <;> rfl

/-- Witness for C17: `Some(367)` survives the trip through `Get` and `FromValOk`. -/
theorem Get_FromValOk_inverse_witness :
    FromValOk (Some (367 : Int)).Get.1 (Some (367 : Int)).Get.2 = Some 367 :=
  (Get_FromValOk_inverse (Some (367 : Int)) (by decide) 0 true).1

/-- C18. `ToPtr` and `FromPtr` round-trip: for an option satisfying the
invariant, `FromPtr(o.ToPtr())` returns `o`; for every pointer `p`, `FromPtr(p)`
returns an option whose `ToPtr()` is nil if and only if `p` is nil, and which
otherwise dereferences to the value `p` points at. -/
theorem ToPtr_FromPtr_round_trip {T : Type} [ZeroValue T]
    (o : Opt T) (hinv : Inv o) (p : Ptr T) :
    FromPtr o.ToPtr = Outcome.ret o
    ∧ (∃ x, FromPtr p = Outcome.ret x
        ∧ (x.ToPtr = none ↔ p = none)
        ∧ (p ≠ none → ∃ w, deref p = Outcome.ret w ∧ deref x.ToPtr = Outcome.ret w)) := by
  constructor
  · cases h : o.isSome with
    | false =>
      have ht : o.ToPtr = none := by simp [Opt.ToPtr, h]
      rw [ht, Opt.eq_None_of_absent o h hinv]
      rfl
    | true =>
      have ht : o.ToPtr = some o.value := by simp [Opt.ToPtr, h]
      rw [ht]
      exact congrArg Outcome.ret (Opt.eq_Some_of_isSome o h).symm
  · cases p with
    | none =>
      refine ⟨None, rfl, ?_, ?_⟩
      · simp [Opt.ToPtr, None]
      · intro hne; exact absurd rfl hne
    | some w =>
      refine ⟨Some w, rfl, ?_, ?_⟩
      · simp [Opt.ToPtr, Some]
      · intro _; exact ⟨w, rfl, rfl⟩

/-- Witness for C18: `Some(8)` and `None[uint]()` both survive `ToPtr` then `FromPtr`. -/
theorem ToPtr_FromPtr_round_trip_witness :
    FromPtr (Some (8 : Nat)).ToPtr = Outcome.ret (Some 8)
    ∧ FromPtr (None : Opt Nat).ToPtr = Outcome.ret None :=
  ⟨(ToPtr_FromPtr_round_trip (Some (8 : Nat)) (by decide) none).1,
    (ToPtr_FromPtr_round_trip (None : Opt Nat) (by decide) none).1⟩

/-- C19. `Map` preserves identity: for an option satisfying the invariant,
`Map(o, identity)` returns `o` and touches nothing. -/
theorem Map_preserves_identity {T σ : Type} [ZeroValue T]
    (o : Opt T) (hinv : Inv o) (s : σ) :
    Map o (returning id) s = (Outcome.ret o, s) := by
  cases h : o.isSome with
  | false =>
    rw [Map_absent o h, Opt.eq_None_of_absent o h hinv]
  | true =>
    rw [Map_of_ret o h (returning id) s s o.value rfl]
    exact congrArg (fun x => (Outcome.ret x, s)) (Opt.eq_Some_of_isSome o h).symm

/-- Witness for C19: the options produced by `FromValErr` on a nil and on a
non-nil error are both fixed by `Map` with the identity. -/
theorem Map_preserves_identity_witness :
    Map (FromValErr (4 : Nat) none) (returning id) () = (Outcome.ret (Some 4), ())
    ∧ Map (FromValErr (4 : Nat) (some ⟨"e"⟩)) (returning id) () = (Outcome.ret None, ()) :=
  ⟨Map_preserves_identity (FromValErr (4 : Nat) none) (by decide) (),
    Map_preserves_identity (FromValErr (4 : Nat) (some ⟨"e"⟩)) (by decide) ()⟩

/-- C20. `Map` preserves composition, with or without the invariant:
`Map(Map(o, f), g)` and `Map(o, x => g(f(x)))` have the same outcome and the
same effects, for callbacks with effects and panics, and in particular for
functions `f0`, `g0` without effects. -/
theorem Map_preserves_composition {T U V σ : Type} [ZeroValue U] [ZeroValue V]
    (o : Opt T) (f : T → Go σ U) (g : U → Go σ V) (f0 : T → U) (g0 : U → V) (s : σ) :
    (Map o f >>= fun m => Map m g) s = Map o (fun x => f x >>= g) s
    ∧ (Map o (returning f0) >>= fun m => Map m (returning g0)) s
        = Map o (returning fun x => g0 (f0 x)) s := by
  have hgen : ∀ (k : T → Go σ U) (l : U → Go σ V),
      (Map o k >>= fun m => Map m l) s = Map o (fun x => k x >>= l) s := by
    intro k l
    cases h : o.isSome with
    | false =>
      rw [Go.bind_run, Map_absent o h, Map_absent o h]
      exact Map_absent None rfl l s
    | true =>
      rw [Go.bind_run, Map_present o h, Map_present o h, Go.bind_run]
      rcases hq : k o.value s with ⟨q, s'⟩
      cases q with
      | ret u => exact Map_present (Some u) rfl l s'
      | panic e => rfl
  exact ⟨hgen f g, hgen (returning f0) (returning g0)⟩

end opt
